import Mathlib

/-!
Shallow embedding of the RealGibberLink secure mission-transfer core
(`rgibberlink-core`): crypto primitives and ephemeral key sessions
(`crypto.rs`), the drone-side mission transfer state machine
(`mission_transfer.rs`), the signed audit logger (`logging.rs`) and the
audit/alert system (`audit/events.rs`), together with theorems checking
the natural-language specification against this embedding.

Bytes are modelled as `Nat` values and byte strings as `List Nat`.
Clock readings (`Instant`, `SystemTime`) are `Nat` milliseconds passed
explicitly to each operation that reads the clock; `Duration`
subtraction on `SystemTime`/`Instant` is truncated `Nat` subtraction,
matching the saturating behaviour the source obtains through
`duration_since`/`unwrap_or`.
-/

set_option maxRecDepth 40000

namespace RGibberLink

/-- Decidable equality on `Except`, used to evaluate results of the
embedded fallible operations on concrete inputs. -/
instance {ε α : Type} [DecidableEq ε] [DecidableEq α] : DecidableEq (Except ε α) := fun a b =>
  match a, b with
  | .error e, .error f =>
    if h : e = f then .isTrue (by rw [h]) else .isFalse (fun hh => h (Except.error.inj hh))
  | .error _, .ok _ => .isFalse (fun hh => Except.noConfusion hh)
  | .ok _, .error _ => .isFalse (fun hh => Except.noConfusion hh)
  | .ok x, .ok y =>
    if h : x = y then .isTrue (by rw [h]) else .isFalse (fun hh => h (Except.ok.inj hh))

/-- Error enum from `crypto.rs` (`CryptoError`). -/
inductive CryptoError where
  | AeadError
  | HmacError
  | InvalidKeyLength
  | KeyExpired
  | SignatureError
  | Ed25519Error
  | GenericError (msg : String)
  deriving DecidableEq, Repr

/-- Session holding a short-lived symmetric key, from `crypto.rs`
(`EphemeralKeySession`): 32-byte key, creation instant and ttl.
`created_at` and `ttl` are in milliseconds. -/
structure EphemeralKeySession where
  key : List Nat
  created_at : Nat
  ttl : Nat
  deriving DecidableEq, Repr

namespace EphemeralKeySession

/-- Constructor `EphemeralKeySession::new(key, ttl)`; the source reads
`Instant::now()` for `created_at`, passed here as `now`. -/
def new (key : List Nat) (ttl : Nat) (now : Nat) : EphemeralKeySession :=
  { key := key, created_at := now, ttl := ttl }

/-- Method `is_expired`: `self.created_at.elapsed() > self.ttl`, with
`elapsed = now - created_at` (an `Instant` is monotone, so truncated
subtraction is exact for `now ≥ created_at`). -/
def is_expired (s : EphemeralKeySession) (now : Nat) : Bool :=
  now - s.created_at > s.ttl

/-- Method `key()` from `crypto.rs`: returns `&self.key` unconditionally.
Its return type is the bare key; there is no expiry check and no
`KeyExpired` error path anywhere in its body. -/
def key_value (s : EphemeralKeySession) : List Nat :=
  s.key

/-- Method `invalidate`: zeroizes the key bytes and sets `ttl` to 0. -/
def invalidate (s : EphemeralKeySession) : EphemeralKeySession :=
  { s with key := List.replicate s.key.length 0, ttl := 0 }

end EphemeralKeySession

/-- Modelled from the spec: the AES-256-GCM keystream of the `aes_gcm`
crate, which is not part of this repository. The model is an explicit
byte-indexed stream derived from key and nonce; the only property the
development uses is that masking with it twice is the identity, the
contract the spec states as `aead_open(k, aead_seal(k, m, aad), aad) == m`. -/
def ksByte (key nonce : List Nat) (i : Nat) : Nat :=
  (key.getD (i % 32) 0) ^^^ (nonce.getD (i % 12) 0) ^^^ i

/-- Mask a byte string with the modelled keystream starting at index `i`. -/
def xorStream (key nonce : List Nat) : Nat → List Nat → List Nat
  | _, [] => []
  | i, b :: bs => (b ^^^ ksByte key nonce i) :: xorStream key nonce (i + 1) bs

/-- Modelled from the spec: the 16-byte GCM authentication tag of the
`aes_gcm` crate, as a deterministic digest of key, nonce and ciphertext. -/
def gcmTag (key nonce ct : List Nat) : List Nat :=
  (List.range 16).map
    (fun j => ((key ++ nonce ++ ct).foldl (fun a b => (a * 131 + b + j) % 251) (j + 17)))

/-- Modelled from the spec: `Aes256Gcm::encrypt` — ciphertext body followed
by the 16-byte tag (`ciphertext∥tag`). -/
def aes256gcm_encrypt (key nonce data : List Nat) : List Nat :=
  xorStream key nonce 0 data ++ gcmTag key nonce (xorStream key nonce 0 data)

/-- Modelled from the spec: `Aes256Gcm::decrypt` — splits off the trailing
16-byte tag, recomputes and compares it, and unmasks the body; any
mismatch or short input is a failure (`None`). -/
def aes256gcm_decrypt (key nonce blob : List Nat) : Option (List Nat) :=
  if blob.length < 16 then none
  else
    let ct := blob.take (blob.length - 16)
    let tag := blob.drop (blob.length - 16)
    if tag = gcmTag key nonce ct then some (xorStream key nonce 0 ct) else none

/-- `CryptoEngine::encrypt_data` from `crypto.rs`: checks the key length
(AES-256 requires 32 bytes), draws a 16-byte random nonce (passed here as
`nonce_full`), uses its first 12 bytes as the AEAD nonce and prepends them
to the ciphertext (`ciphertext.splice(0..0, nonce_bytes)`). -/
def encrypt_data (key nonce_full data : List Nat) : Except CryptoError (List Nat) :=
  if key.length ≠ 32 then .error .InvalidKeyLength
  else
    .ok ((nonce_full.take 12) ++ aes256gcm_encrypt key (nonce_full.take 12) data)

/-- `CryptoEngine::decrypt_data` from `crypto.rs`: inputs shorter than 12
bytes are rejected with `AeadError` before any slicing; otherwise the
first 12 bytes are the nonce and the rest is opened with AES-256-GCM. -/
def decrypt_data (key enc : List Nat) : Except CryptoError (List Nat) :=
  if enc.length < 12 then .error .AeadError
  else if key.length ≠ 32 then .error .InvalidKeyLength
  else
    match aes256gcm_decrypt key (enc.take 12) (enc.drop 12) with
    | some pt => .ok pt
    | none => .error .AeadError

theorem xorStream_length (key nonce : List Nat) :
    ∀ (i : Nat) (l : List Nat), (xorStream key nonce i l).length = l.length := by
  intro i l
  induction l generalizing i with
  | nil => rfl
  | cons b bs ih => simp [xorStream, ih]

theorem xorStream_involutive (key nonce : List Nat) :
    ∀ (i : Nat) (l : List Nat),
      xorStream key nonce i (xorStream key nonce i l) = l := by
  intro i l
  induction l generalizing i with
  | nil => rfl
  | cons b bs ih => simp [xorStream, ih, Nat.xor_cancel_right]

theorem aes256gcm_roundtrip (key nonce data : List Nat) :
    aes256gcm_decrypt key nonce (aes256gcm_encrypt key nonce data) = some data := by
  unfold aes256gcm_encrypt aes256gcm_decrypt
  have htag : (gcmTag key nonce (xorStream key nonce 0 data)).length = 16 := by
    simp [gcmTag]
  have hlen : (xorStream key nonce 0 data ++
      gcmTag key nonce (xorStream key nonce 0 data)).length =
      (xorStream key nonce 0 data).length + 16 := by
    simp [htag]
  rw [hlen]
  have hnot : ¬ ((xorStream key nonce 0 data).length + 16 < 16) := by omega
  simp only [hnot, if_false]
  have htake : (xorStream key nonce 0 data ++
      gcmTag key nonce (xorStream key nonce 0 data)).take
      ((xorStream key nonce 0 data).length + 16 - 16) = xorStream key nonce 0 data := by
    have h16 : (xorStream key nonce 0 data).length + 16 - 16 =
        (xorStream key nonce 0 data).length := by omega
    rw [h16]
    exact List.take_left _ _
  have hdrop : (xorStream key nonce 0 data ++
      gcmTag key nonce (xorStream key nonce 0 data)).drop
      ((xorStream key nonce 0 data).length + 16 - 16) =
      gcmTag key nonce (xorStream key nonce 0 data) := by
    have h16 : (xorStream key nonce 0 data).length + 16 - 16 =
        (xorStream key nonce 0 data).length := by omega
    rw [h16]
    exact List.drop_left _ _
  rw [htake, hdrop]
  simp [xorStream_involutive]

/-- Modelled from the spec: `CryptoEngine::generate_device_fingerprint`
computes SHA-256 (`sha2` crate, not part of this repository) of the
input; modelled as a 32-byte digest from a rolling byte fold. -/
def generate_device_fingerprint (device_info : List Nat) : List Nat :=
  List.replicate 32 (device_info.foldl (fun a b => (a * 131 + b) % 256) 7)

/-- 16-byte opaque mission identifier (`mission.rs`: `type MissionId = [u8; 16]`). -/
abbrev MissionId := List Nat

/-- Mission header from `mission.rs`. The transfer core touches only the
embedded id; the remaining header fields (name, validity window,
fingerprints, priority, tags) are opaque to it (spec §3) and omitted. -/
structure MissionHeader where
  id : MissionId
  deriving DecidableEq, Repr

/-- Mission payload from `mission.rs`. The spec (§3) makes the payload
application-opaque to this core: it must only serialize canonically and
carry its embedded `MissionId`. Everything besides the header (flight
plan, tasks, constraints, policies, weather) is abstracted into `body`. -/
structure MissionPayload where
  header : MissionHeader
  body : Nat
  deriving DecidableEq, Repr

/-- Modelled from the spec: canonical serialization of a mission payload
(`serde_cbor::to_vec`, external crate). The id bytes followed by the
abstract body byte. -/
def encodeMission (m : MissionPayload) : List Nat :=
  m.header.id ++ [m.body]

/-- Modelled from the spec: canonical deserialization
(`serde_cbor::from_slice`); inverse of `encodeMission` on well-formed
input, failure (`none`) otherwise. -/
def decodeMission (bs : List Nat) : Option MissionPayload :=
  if bs.length = 17 then some ⟨⟨bs.take 16⟩, bs.getD 16 0⟩ else none

/-- Error enum from `mission_transfer.rs` (`MissionTransferError`).
Variants whose payloads are error types of modules outside `src/`
(`VisualError`, `UltrasonicBeamError`, `SecurityError`,
`ValidationError`) carry their rendered message. -/
inductive MissionTransferError where
  | VisualError (msg : String)
  | UltrasonicError (msg : String)
  | CryptoError (e : CryptoError)
  | SecurityError (msg : String)
  | ChannelValidationError (msg : String)
  | SerializationError (msg : String)
  | TemporalCouplingFailed
  | ChannelBindingError (msg : String)
  | MissionNotFound
  | SessionNotFound
  | MissionIntegrityError (msg : String)
  | WeatherValidationError
  | MFANotVerified
  | MissionExpired
  | SequenceError
  deriving DecidableEq, Repr

/-- Encrypted mission payload from `mission_transfer.rs`
(`EncryptedMissionPayload`). `validity_timestamp` is in milliseconds.
The `payload_hash` field is read by `receive_binding_data` and
`generate_channel_binding` although the Rust struct declaration omits
it; modelled from the spec (§4.7): the station commits to
`payload_hash = fingerprint(encrypted.ciphertext)`. -/
structure EncryptedMissionPayload where
  mission_id : MissionId
  encrypted_data : List Nat
  signature : List Nat
  session_nonce : List Nat
  validity_timestamp : Nat
  weather_fingerprint : List Nat
  payload_hash : List Nat
  deriving DecidableEq, Repr

/-- Ultrasonic binding frame from `mission_transfer.rs`
(`ChannelBindingData`); `timestamp` in milliseconds. -/
structure ChannelBindingData where
  session_id : List Nat
  mission_id : MissionId
  mac_binding : List Nat
  timestamp : Nat
  sequence_id : Nat
  payload_hash : List Nat
  deriving DecidableEq, Repr

/-- MFA state from `security` (`MFAAuthentication`), as used by
`mission_transfer.rs`; `last_verification` in milliseconds. -/
structure MFAAuthentication where
  pin_verified : Bool
  biometric_verified : Bool
  laser_channel_verified : Bool
  ultrasound_channel_verified : Bool
  cross_channel_binding_verified : Bool
  last_verification : Nat
  deriving DecidableEq, Repr

/-- Modelled from the spec (§4.8): the `SecurityManager` of the security
submodule, whose implementation files (`security/auth.rs`,
`security/permissions.rs`) are not under `src/`. `validate_pin` succeeds
iff the presented PIN matches the stored one; `check_permission`
succeeds iff the scope has an active grant; `grant_permission` records a
grant and succeeds. Rate limiting and constant-time comparison are
timing properties outside this embedding. -/
structure SecurityManager where
  pin : String
  granted_scopes : List String
  deriving DecidableEq, Repr

/-- Modelled from the spec (§4.8): PIN validation outcome. -/
def validate_pin (s : SecurityManager) (pin_code : String) : Bool :=
  pin_code = s.pin

/-- Modelled from the spec (§4.8): scope permission check outcome. -/
def check_permission (s : SecurityManager) (scope : String) : Bool :=
  s.granted_scopes.contains scope

/-- Drone-side receiver state from `mission_transfer.rs` (`MissionDrone`):
the received payload map, the MFA channel-auth state and the security
manager. The visual/ultrasonic engines and the channel validator are
engines of modules outside `src/` and the station-side `session_keys`
map is never read by the drone operations embedded here. -/
structure MissionDrone where
  received_payloads : List (MissionId × EncryptedMissionPayload)
  channel_auth_state : MFAAuthentication
  security : SecurityManager
  deriving DecidableEq, Repr

/-- `HashMap::get` over the received-payload map. -/
def lookupPayload (m : List (MissionId × EncryptedMissionPayload)) (k : MissionId) :
    Option EncryptedMissionPayload :=
  (m.find? (fun p => p.1 == k)).map (fun p => p.2)

/-- `MissionDrone::receive_binding_data` from `mission_transfer.rs`.
The input arrives here already deserialized (`serde_cbor::from_slice` is
an external crate; its failure is the separate `SerializationError`
path). Gates in source order: the binding frame's age relative to local
reception (`duration_since` fails when the frame timestamp is in the
local future, and ages above 100 ms are rejected) — then payload lookup —
then payload-hash comparison — then sequence check. On success the MFA
flags are set and `last_verification` updated; the final hand-off to the
channel validator (module not under `src/`) is modelled from the spec as
recording the observation and succeeding. -/
def receive_binding_data (d : MissionDrone) (binding : ChannelBindingData)
    (now : Nat) : Except MissionTransferError MissionDrone :=
  if binding.timestamp > now then .error .TemporalCouplingFailed
  else if now - binding.timestamp > 100 then .error .TemporalCouplingFailed
  else
    match lookupPayload d.received_payloads binding.mission_id with
    | none => .error .MissionNotFound
    | some payload =>
      if binding.payload_hash ≠ payload.payload_hash then
        .error (.ChannelBindingError "Payload hash mismatch")
      else if binding.sequence_id ≠ 1 then .error .SequenceError
      else .ok { d with channel_auth_state :=
        { d.channel_auth_state with
            ultrasound_channel_verified := true
            cross_channel_binding_verified := true
            last_verification := now } }

/-- `MissionDrone::is_channel_auth_valid`: authentication is valid for
5 minutes (300 000 ms) after `last_verification`; a clock running behind
`last_verification` yields elapsed 0 (`unwrap_or(Duration::from_secs(0))`),
which truncated subtraction reproduces. -/
def is_channel_auth_valid (d : MissionDrone) (now : Nat) : Bool :=
  (now - d.channel_auth_state.last_verification < 300000) &&
  d.channel_auth_state.pin_verified &&
  d.channel_auth_state.cross_channel_binding_verified

/-- `MissionDrone::validate_and_decrypt_mission` from
`mission_transfer.rs`, gates in source order: PIN validation,
cross-channel binding flag, MFA freshness, per-scope permission checks,
payload lookup, validity-deadline check (`SystemTime::now() >
validity_timestamp`), then decryption — the source sets
`let session_key = [1u8; 32];` (its comment: a placeholder for the key
the binding handshake would derive) — deserialization, and the
mission-id integrity check. The final `grant_permission` call succeeds
in the model. -/
def validate_and_decrypt_mission (d : MissionDrone) (mission_id : MissionId)
    (pin_code : String) (approved_scopes : List String) (now : Nat) :
    Except MissionTransferError MissionPayload :=
  if ¬ validate_pin d.security pin_code then .error (.SecurityError "PIN validation failed")
  else if ¬ d.channel_auth_state.cross_channel_binding_verified then
    .error (.ChannelBindingError "Cross-channel binding not verified")
  else if ¬ is_channel_auth_valid d now then .error .MFANotVerified
  else if ¬ approved_scopes.all (fun s => check_permission d.security s) then
    .error (.SecurityError "Permission check failed")
  else
    match lookupPayload d.received_payloads mission_id with
    | none => .error .MissionNotFound
    | some encrypted_payload =>
      if now > encrypted_payload.validity_timestamp then .error .MissionExpired
      else
        let session_key := List.replicate 32 1
        match decrypt_data session_key encrypted_payload.encrypted_data with
        | .error e => .error (.CryptoError e)
        | .ok decrypted_data =>
          match decodeMission decrypted_data with
          | none => .error (.SerializationError "mission decode failed")
          | some mission =>
            if mission.header.id ≠ mission_id then
              .error (.MissionIntegrityError "Mission ID mismatch")
            else .ok mission

/-! Concrete fixtures used by several theorems: a mission whose id is
sixteen `3` bytes, sealed once under the placeholder key `[1u8; 32]`
hard-coded in `validate_and_decrypt_mission` and once under a distinct
32-byte key standing for a handshake-derived session key. -/

/-- A concrete mission payload. -/
def mission0 : MissionPayload := ⟨⟨List.replicate 16 3⟩, 9⟩

/-- The placeholder key `[1u8; 32]` that `validate_and_decrypt_mission`
hard-codes. -/
def fixedSessionKey : List Nat := List.replicate 32 1

/-- A distinct 32-byte key standing for the session key an ephemeral
handshake would derive. -/
def derivedSessionKey : List Nat := List.replicate 32 2

/-- A concrete 16-byte random draw for the AEAD nonce. -/
def nonce0 : List Nat := List.replicate 16 5

/-- `mission0` sealed (as `encrypt_data` seals) under the placeholder key. -/
def ctFixed : List Nat :=
  (nonce0.take 12) ++ aes256gcm_encrypt fixedSessionKey (nonce0.take 12) (encodeMission mission0)

/-- `mission0` sealed under the handshake-derived key. -/
def ctDerived : List Nat :=
  (nonce0.take 12) ++ aes256gcm_encrypt derivedSessionKey (nonce0.take 12) (encodeMission mission0)

/-- A stored encrypted payload around a given ciphertext, committed to
`payload_hash = fingerprint(ciphertext)` and expiring at t = 1000 ms. -/
def mkPayload (ct : List Nat) : EncryptedMissionPayload :=
  { mission_id := List.replicate 16 3
    encrypted_data := ct
    signature := []
    session_nonce := nonce0
    validity_timestamp := 1000
    weather_fingerprint := List.replicate 32 0
    payload_hash := generate_device_fingerprint ct }

/-- MFA state with every gate of `validate_and_decrypt_mission` satisfied. -/
def mfaReady : MFAAuthentication :=
  { pin_verified := true
    biometric_verified := false
    laser_channel_verified := true
    ultrasound_channel_verified := true
    cross_channel_binding_verified := true
    last_verification := 0 }

/-- A security manager that accepts PIN `1234`. -/
def securityOk : SecurityManager := ⟨"1234", ["ExecuteMission"]⟩

/-- Drone state holding `mission0` sealed under the placeholder key. -/
def droneFixed : MissionDrone :=
  ⟨[(List.replicate 16 3, mkPayload ctFixed)], mfaReady, securityOk⟩

/-- Drone state holding `mission0` sealed under the handshake-derived key. -/
def droneDerived : MissionDrone :=
  ⟨[(List.replicate 16 3, mkPayload ctDerived)], mfaReady, securityOk⟩

/-- C1: the drone decrypt uses the constant `[1u8; 32]` rather than any
key derived from the handshake: a payload sealed under that constant
decrypts fine although no key agreement is recorded anywhere in the
state, while a payload sealed under a handshake-derived session key is
rejected with an AEAD failure. -/
theorem claim_C1 :
    validate_and_decrypt_mission droneFixed (List.replicate 16 3) "1234" [] 50 =
      .ok mission0 ∧
    validate_and_decrypt_mission droneDerived (List.replicate 16 3) "1234" [] 50 =
      .error (.CryptoError .AeadError) := by
  decide

/-- C3: with the stored payload committed to the fingerprint of its
ciphertext, `receive_binding_data` (1) succeeds only if the frame is at
most 100 ms old, its `payload_hash` equals that fingerprint, and its
`sequence_id` is 1; (2) rejects an age of exactly 101 ms with
`TemporalCouplingFailed`; (3) does not reject an age of exactly 100 ms
for temporal coupling; (4) rejects a wrong `sequence_id` with
`SequenceError`. -/
theorem claim_C3 (d : MissionDrone) (binding : ChannelBindingData) (now : Nat)
    (payload : EncryptedMissionPayload)
    (hfind : lookupPayload d.received_payloads binding.mission_id = some payload)
    (hhash : payload.payload_hash = generate_device_fingerprint payload.encrypted_data) :
    ((∃ d2, receive_binding_data d binding now = .ok d2) →
        binding.timestamp ≤ now ∧ now - binding.timestamp ≤ 100 ∧
        binding.payload_hash = generate_device_fingerprint payload.encrypted_data ∧
        binding.sequence_id = 1) ∧
    (binding.timestamp ≤ now → now - binding.timestamp = 101 →
        receive_binding_data d binding now = .error .TemporalCouplingFailed) ∧
    (binding.timestamp ≤ now → now - binding.timestamp = 100 →
        receive_binding_data d binding now ≠ .error .TemporalCouplingFailed) ∧
    (binding.timestamp ≤ now → now - binding.timestamp ≤ 100 →
        binding.payload_hash = payload.payload_hash → binding.sequence_id ≠ 1 →
        receive_binding_data d binding now = .error .SequenceError) := by
  refine ⟨?_, ?_, ?_, ?_⟩
  · rintro ⟨d2, hok⟩
    simp only [receive_binding_data, hfind] at hok
    split_ifs at hok with h1 h2 h3 h4
    refine ⟨by omega, by omega, ?_, ?_⟩
    · rw [← hhash]
      exact not_not.mp h3
    · exact not_not.mp h4
  · intro hts h101
    have hgt : ¬ binding.timestamp > now := by omega
    have hage : now - binding.timestamp > 100 := by omega
    simp [receive_binding_data, hgt, hage]
  · intro hts h100
    have hgt : ¬ binding.timestamp > now := by omega
    have hage : ¬ now - binding.timestamp > 100 := by omega
    simp only [receive_binding_data, hgt, hage, if_false, hfind]
    split_ifs <;> simp
  · intro hts hage hph hseq
    have hgt : ¬ binding.timestamp > now := by omega
    have hage2 : ¬ now - binding.timestamp > 100 := by omega
    simp [receive_binding_data, hgt, hage2, hfind, hph, hseq]

/-- A binding frame matching `droneFixed`, emitted at t = 0 with
`sequence_id = 1`. -/
def binding100 : ChannelBindingData :=
  ⟨nonce0, List.replicate 16 3, [], 0, 1, generate_device_fingerprint ctFixed⟩

theorem claim_C3_witness :
    receive_binding_data droneFixed binding100 100 ≠
      Except.error MissionTransferError.TemporalCouplingFailed :=
  (claim_C3 droneFixed binding100 100 (mkPayload ctFixed) (by decide)
    (by decide)).2.2.1 (by decide) (by decide)

/-- C4 counterexample: a call exactly at the validity deadline
(t = 1000 ms) is accepted, because the source rejects only when
`SystemTime::now() > validity_timestamp` is strict; the claim says it
must be rejected. -/
theorem claim_C4_counterexample :
    validate_and_decrypt_mission droneFixed (List.replicate 16 3) "1234" [] 1000 =
      .ok mission0 := by
  decide

/-- C4 (amended): once the earlier gates pass, the mission is rejected
with `MissionExpired` exactly when the call is strictly after
`validity_timestamp`; at the deadline itself, and hence also 1 ms
before, it is not rejected for expiry. -/
theorem claim_C4 (d : MissionDrone) (mission_id : MissionId) (pin : String)
    (scopes : List String) (now : Nat) (payload : EncryptedMissionPayload)
    (h1 : validate_pin d.security pin = true)
    (h2 : d.channel_auth_state.cross_channel_binding_verified = true)
    (h3 : is_channel_auth_valid d now = true)
    (h4 : scopes.all (fun s => check_permission d.security s) = true)
    (h5 : lookupPayload d.received_payloads mission_id = some payload) :
    (now > payload.validity_timestamp →
        validate_and_decrypt_mission d mission_id pin scopes now =
          .error .MissionExpired) ∧
    (now ≤ payload.validity_timestamp →
        validate_and_decrypt_mission d mission_id pin scopes now ≠
          .error .MissionExpired) := by
  constructor
  · intro hgt
    simp [validate_and_decrypt_mission, h1, h2, h3, h4, h5, hgt]
  · intro hle
    have hngt : ¬ now > payload.validity_timestamp := by omega
    simp only [validate_and_decrypt_mission, h1, h2, h3, h4, h5, hngt]
    simp only [not_true, if_false, ite_false, ite_true]
    cases hdec : decrypt_data (List.replicate 32 1) payload.encrypted_data with
    | error e => simp [hdec]
    | ok dd =>
      cases hdecode : decodeMission dd with
      | none => simp [hdec, hdecode]
      | some m =>
        by_cases hid : m.header.id = mission_id <;> simp [hdec, hdecode, hid]

theorem claim_C4_witness :
    validate_and_decrypt_mission droneFixed (List.replicate 16 3) "1234" [] 1001 =
      Except.error MissionTransferError.MissionExpired :=
  (claim_C4 droneFixed (List.replicate 16 3) "1234" [] 1001 (mkPayload ctFixed)
    (by decide) (by decide) (by decide) (by decide) (by decide)).1 (by decide)

/-- Opening a blob that `encrypt_data` produced with a 12-byte nonce
prefix recovers the plaintext. -/
theorem decrypt_encrypt_blob (key nb data : List Nat) (hk : key.length = 32)
    (hnb : nb.length = 12) :
    decrypt_data key (nb ++ aes256gcm_encrypt key nb data) = .ok data := by
  have hge : ¬ (nb ++ aes256gcm_encrypt key nb data).length < 12 := by
    simp [hnb]
  unfold decrypt_data
  rw [if_neg hge, if_neg (by simp [hk])]
  have htake : (nb ++ aes256gcm_encrypt key nb data).take 12 = nb := by
    rw [← hnb]
    exact List.take_left _ _
  have hdrop : (nb ++ aes256gcm_encrypt key nb data).drop 12 = aes256gcm_encrypt key nb data := by
    rw [← hnb]
    exact List.drop_left _ _
  rw [htake, hdrop, aes256gcm_roundtrip]

/-- C2: an `EphemeralKeySession` past its ttl — whether by elapsed time or
after `invalidate()` — still hands out key material through `key()`: the
accessor returns the bare key bytes (the real key for a timed-out
session, the zeroized bytes after `invalidate`), and no `KeyExpired`
error is possible since `CryptoError::KeyExpired` is never constructed
anywhere in the source. -/
theorem claim_C2 :
    ((EphemeralKeySession.new (List.replicate 32 7) 5000 0).is_expired 5001 = true ∧
      (EphemeralKeySession.new (List.replicate 32 7) 5000 0).key_value =
        List.replicate 32 7) ∧
    (((EphemeralKeySession.new (List.replicate 32 7) 5000 0).invalidate).is_expired 1 = true ∧
      ((EphemeralKeySession.new (List.replicate 32 7) 5000 0).invalidate).key_value =
        List.replicate 32 0) := by
  decide

/-- C8: for every 32-byte key and 16-byte random draw, `encrypt_data`
produces the 12-byte nonce prefix followed by `ciphertext∥tag`, and
`decrypt_data` inverts it: `aead_open(k, aead_seal(k, m, aad), aad) == m`
(the source passes no associated data, so the AAD is empty on both
sides). -/
theorem claim_C8 (key nonce_full data : List Nat) (hk : key.length = 32)
    (hn : nonce_full.length = 16) :
    encrypt_data key nonce_full data =
      .ok ((nonce_full.take 12) ++ aes256gcm_encrypt key (nonce_full.take 12) data) ∧
    (encrypt_data key nonce_full data).bind (fun blob => decrypt_data key blob) =
      .ok data := by
  have hnb : (nonce_full.take 12).length = 12 := by
    simp [List.length_take, hn]
  have henc : encrypt_data key nonce_full data =
      .ok ((nonce_full.take 12) ++ aes256gcm_encrypt key (nonce_full.take 12) data) := by
    simp [encrypt_data, hk]
  refine ⟨henc, ?_⟩
  rw [henc]
  show decrypt_data key _ = .ok data
  exact decrypt_encrypt_blob key (nonce_full.take 12) data hk hnb

theorem claim_C8_witness :
    (encrypt_data (List.replicate 32 4) (List.replicate 16 6) [10, 20, 30]).bind
      (fun blob => decrypt_data (List.replicate 32 4) blob) = Except.ok [10, 20, 30] :=
  (claim_C8 (List.replicate 32 4) (List.replicate 16 6) [10, 20, 30]
    (by decide) (by decide)).2

/-- C10: `decrypt_data` is total — every call returns either a plaintext
or a `CryptoError` — and every input shorter than the 12-byte nonce
prefix is rejected with `AeadError` by the explicit length guard before
any slicing. -/
theorem claim_C10 :
    (∀ key enc : List Nat, enc.length < 12 →
        decrypt_data key enc = .error .AeadError) ∧
    (∀ key enc : List Nat, (∃ pt, decrypt_data key enc = .ok pt) ∨
        (∃ e, decrypt_data key enc = .error e)) := by
  constructor
  · intro key enc h
    simp [decrypt_data, h]
  · intro key enc
    cases hres : decrypt_data key enc with
    | ok pt => exact Or.inl ⟨pt, rfl⟩
    | error e => exact Or.inr ⟨e, rfl⟩

theorem claim_C10_witness :
    decrypt_data (List.replicate 32 1) [1, 2, 3] =
      Except.error CryptoError.AeadError :=
  claim_C10.1 (List.replicate 32 1) [1, 2, 3] (by decide)

/-- Event enum from `logging.rs` (`LogEvent`); `Instant` payloads are
milliseconds. -/
inductive LogEvent where
  | SessionStarted (peer_fingerprint : List Nat) (timestamp : Nat)
  | KeyExchanged (key_id : List Nat) (ephemeral : Bool)
  | MessageSent (sequence_id : Nat) (size_bytes : Nat)
  | MessageReceived (sequence_id : Nat) (size_bytes : Nat)
  | ValidationPassed (channel_type : String)
  | ValidationFailed (channel_type : String) (reason : String)
  | SessionExpired (key_id : List Nat)
  | AuthenticationGranted (permissions : List String)
  | AuthenticationDenied (reason : String)
  | ChannelConnected (channel_type : String)
  | ChannelDisconnected (channel_type : String) (reason : String)
  | ErrorOccurred (error_type : String) (details : String)
  deriving DecidableEq, Repr

/-- The signable part of a log entry: a `LogEntry` from `logging.rs` with
the `signature` field cleared. The source obtains it by `bincode`
serialization (external crate), modelled as the injective map onto this
record itself. -/
structure LogEntryData where
  timestamp : Nat
  sequence_number : Nat
  event : LogEvent
  device_fingerprint : List Nat
  deriving DecidableEq, Repr

/-- Modelled from the spec: detached Ed25519 signatures
(`ed25519-dalek`, external crate). `empty` is the cleared `Vec::new()`
signature; `signed k d` is the signature by signing key `k` over the
serialized entry `d`. Verification succeeds exactly on a signature
produced by the matching key over the same bytes — the contract the spec
states for `sign`/`verify`, with forgery cryptographically excluded. -/
inductive Ed25519Sig where
  | empty
  | signed (signing_key : Nat) (data : LogEntryData)
  deriving DecidableEq, Repr

/-- Log entry from `logging.rs` (`LogEntry`). -/
structure LogEntry where
  timestamp : Nat
  sequence_number : Nat
  event : LogEvent
  device_fingerprint : List Nat
  signature : Ed25519Sig
  deriving DecidableEq, Repr

/-- Error enum from `logging.rs` (`LogError`). -/
inductive LogError where
  | SignatureVerificationFailed
  | InvalidFormat
  | SequenceViolation
  | TamperingDetected
  deriving DecidableEq, Repr

/-- `SignedLogger::serialize_entry_without_signature`: the entry with the
signature field cleared. -/
def serialize_entry_without_signature (e : LogEntry) : LogEntryData :=
  ⟨e.timestamp, e.sequence_number, e.event, e.device_fingerprint⟩

/-- `CryptoEngine::sign_log_entry` under the modelled Ed25519. -/
def sign_log_entry (signing_key : Nat) (d : LogEntryData) : Ed25519Sig :=
  .signed signing_key d

/-- `CryptoEngine::verify_log_signature` under the modelled Ed25519 (the
source returns `Result<(), CryptoError>`; only its `is_err()` outcome is
consumed). -/
def verify_log_signature (public_key : Nat) (d : LogEntryData) (sig : Ed25519Sig) : Bool :=
  sig == .signed public_key d

/-- Logger state from `logging.rs` (`SignedLogger`). The crypto engine
contributes its Ed25519 keypair, modelled as `signing_key` whose
verifying half mirrors it. -/
structure SignedLogger where
  signing_key : Nat
  device_fingerprint : List Nat
  log_entries : List LogEntry
  next_sequence : Nat
  max_entries : Nat
  deriving DecidableEq, Repr

namespace SignedLogger

/-- `SignedLogger::new`. -/
def new (signing_key : Nat) (device_id : List Nat) (max_entries : Nat) : SignedLogger :=
  { signing_key := signing_key
    device_fingerprint := generate_device_fingerprint device_id
    log_entries := []
    next_sequence := 1
    max_entries := max_entries }

end SignedLogger

/-- `SignedLogger::log_event` on its success path (the only failure paths
are external: a clock before the epoch, or a `bincode` serialization
failure). The entry is signed over its serialization with the signature
cleared, appended, `next_sequence` incremented, and then the front is
popped while the store exceeds `max_entries` — `drop (len − max)`
performs exactly those pops. `now` is the wall-clock millisecond
timestamp. -/
def log_event (l : SignedLogger) (now : Nat) (event : LogEvent) : SignedLogger :=
  let d : LogEntryData := ⟨now, l.next_sequence, event, l.device_fingerprint⟩
  let entry : LogEntry :=
    ⟨now, l.next_sequence, event, l.device_fingerprint, sign_log_entry l.signing_key d⟩
  let entries := l.log_entries ++ [entry]
  { l with
      log_entries := entries.drop (entries.length - l.max_entries)
      next_sequence := l.next_sequence + 1 }

/-- The loop of `SignedLogger::verify_log_integrity`, walking the entries
against a running expected sequence number: the first sequence mismatch
is `SequenceViolation`, the first failing signature `TamperingDetected`. -/
def verifyFrom (pk : Nat) : Nat → List LogEntry → Except LogError Unit
  | _, [] => .ok ()
  | expected, e :: rest =>
    if e.sequence_number ≠ expected then .error .SequenceViolation
    else if ¬ verify_log_signature pk (serialize_entry_without_signature e) e.signature then
      .error .TamperingDetected
    else verifyFrom pk (expected + 1) rest

/-- `SignedLogger::verify_log_integrity`: the walk starts with expected
sequence number 1 and verifies against the engine's public key. -/
def verify_log_integrity (l : SignedLogger) : Except LogError Unit :=
  verifyFrom l.signing_key 1 l.log_entries

/-- `SignedLogger::import_log`, mirroring the `&mut self` semantics as a
state-passing pair: the input arrives already `bincode`-decoded (decode
failure is the external `InvalidFormat` path). A temporary logger around
the imported entries is verified in full; on error the early return
leaves the logger unchanged, otherwise the local entries are replaced
and `next_sequence` becomes the last entry's sequence number plus 1
(1 for an empty import). -/
def import_log (l : SignedLogger) (entries : List LogEntry) :
    SignedLogger × Option LogError :=
  match verify_log_integrity
      { l with log_entries := entries, next_sequence := 0, max_entries := 0 } with
  | .error e => (l, some e)
  | .ok _ =>
    ({ l with
        log_entries := entries
        next_sequence := (entries.getLast?).elim 1 (fun e => e.sequence_number + 1) },
      none)

/-- The maximum sequence number occurring in a list of entries (0 when
empty). -/
def maxSeq (entries : List LogEntry) : Nat :=
  entries.foldr (fun e a => max e.sequence_number a) 0

/-- Running a sequence of timestamped events through `log_event`. -/
def runEvents (l : SignedLogger) (evs : List (Nat × LogEvent)) : SignedLogger :=
  evs.foldl (fun acc p => log_event acc p.1 p.2) l

theorem verifyFrom_append_ok (pk : Nat) (e : LogEntry)
    (hsig : verify_log_signature pk (serialize_entry_without_signature e) e.signature = true) :
    ∀ (k : Nat) (es : List LogEntry), verifyFrom pk k es = .ok () →
      e.sequence_number = k + es.length → verifyFrom pk k (es ++ [e]) = .ok () := by
  intro k es
  induction es generalizing k with
  | nil =>
    intro _ hseq
    simp only [List.nil_append, List.length_nil, Nat.add_zero] at hseq ⊢
    simp [verifyFrom, hseq, hsig]
  | cons a rest ih =>
    intro h1 hseq
    simp only [verifyFrom] at h1
    split_ifs at h1 with ha1 ha2
    rw [List.cons_append]
    simp only [verifyFrom]
    rw [if_neg ha1, if_neg (not_not_intro ha2)]
    exact ih (k + 1) h1 (by simp at hseq ⊢; omega)

theorem verifyFrom_getLast (pk : Nat) :
    ∀ (es : List LogEntry) (k : Nat), verifyFrom pk k es = .ok () →
      (es.getLast?).elim k (fun e => e.sequence_number + 1) = k + es.length := by
  intro es
  induction es with
  | nil => intro k _; rfl
  | cons a rest ih =>
    intro k h1
    simp only [verifyFrom] at h1
    split_ifs at h1 with ha1 ha2
    have ha1eq : a.sequence_number = k := not_not.mp ha1
    cases rest with
    | nil => simp [List.getLast?, ha1eq]
    | cons b rest2 =>
      rw [List.getLast?_cons_cons]
      have hih := ih (k + 1) h1
      cases hg : (b :: rest2).getLast? with
      | none => simp at hg
      | some x =>
        rw [hg] at hih
        simp only [Option.elim] at hih ⊢
        simp only [List.length_cons] at *
        omega

theorem verifyFrom_maxSeq (pk : Nat) :
    ∀ (es : List LogEntry) (k : Nat), verifyFrom pk k es = .ok () →
      maxSeq es = if es.length = 0 then 0 else k + es.length - 1 := by
  intro es
  induction es with
  | nil => intro k _; rfl
  | cons a rest ih =>
    intro k h1
    simp only [verifyFrom] at h1
    split_ifs at h1 with ha1 ha2
    have ha1eq : a.sequence_number = k := not_not.mp ha1
    have hrest := ih (k + 1) h1
    show max a.sequence_number (maxSeq rest) = _
    rw [ha1eq, hrest]
    cases rest with
    | nil => simp
    | cons b rest2 =>
      simp only [List.length_cons]
      simp
      omega

/-- C6: `import_log` verifies the whole imported sequence before touching
local state. On error the logger is returned unchanged; on success the
local entries are replaced by the imported ones and `next_sequence`
equals the maximum imported sequence number plus 1 (so 1 for an empty
import, since `maxSeq [] = 0`). -/
theorem claim_C6 (l : SignedLogger) (entries : List LogEntry) :
    (∀ err, (import_log l entries).2 = some err → (import_log l entries).1 = l) ∧
    ((import_log l entries).2 = none →
      (import_log l entries).1.log_entries = entries ∧
      (import_log l entries).1.next_sequence = maxSeq entries + 1) := by
  cases hv : verify_log_integrity
      { l with log_entries := entries, next_sequence := 0, max_entries := 0 } with
  | error e =>
    have himp : import_log l entries = (l, some e) := by
      simp only [import_log]
      rw [hv]
    rw [himp]
    exact ⟨fun err _ => rfl, fun hnone => by simp at hnone⟩
  | ok u =>
    have himp : import_log l entries =
        ({ l with
            log_entries := entries
            next_sequence := (entries.getLast?).elim 1 (fun e => e.sequence_number + 1) },
          none) := by
      simp only [import_log]
      rw [hv]
    rw [himp]
    refine ⟨fun err herr => by simp at herr, fun _ => ⟨rfl, ?_⟩⟩
    have hverify : verifyFrom l.signing_key 1 entries = .ok () := by
      cases u
      unfold verify_log_integrity at hv
      simpa using hv
    have hlast := verifyFrom_getLast l.signing_key entries 1 hverify
    have hmax := verifyFrom_maxSeq l.signing_key entries 1 hverify
    show (entries.getLast?).elim 1 (fun e => e.sequence_number + 1) = maxSeq entries + 1
    rw [hlast, hmax]
    cases entries with
    | nil => rfl
    | cons a rest =>
      simp only [List.length_cons]
      simp
      omega

/-- A concrete valid entry with sequence number 1 signed by key 0. -/
def entryOne : LogEntry :=
  ⟨5, 1, .MessageSent 1 256, generate_device_fingerprint [],
    .signed 0 ⟨5, 1, .MessageSent 1 256, generate_device_fingerprint []⟩⟩

theorem claim_C6_witness :
    (import_log (SignedLogger.new 0 [] 10) [entryOne]).1.next_sequence =
      maxSeq [entryOne] + 1 :=
  ((claim_C6 (SignedLogger.new 0 [] 10) [entryOne]).2 (by decide)).2

/-- C5 counterexample: with `max_entries = 1`, two successful `log_event`
calls rotate out the first entry; the retained log is the single entry
with sequence number 2, and `verify_log_integrity` — which insists the
first retained entry have sequence number 1 — fails with
`SequenceViolation`, where the claim promises `Ok` for every number of
calls. -/
theorem claim_C5_counterexample :
    verify_log_integrity
      (runEvents (SignedLogger.new 0 [] 1)
        [(10, .MessageSent 1 256), (11, .MessageSent 2 256)]) =
      .error .SequenceViolation := by
  decide

theorem runEvents_verify_aux (evs : List (Nat × LogEvent)) :
    ∀ l : SignedLogger,
      verifyFrom l.signing_key 1 l.log_entries = .ok () →
      l.next_sequence = l.log_entries.length + 1 →
      l.log_entries.length + evs.length ≤ l.max_entries →
      verifyFrom (runEvents l evs).signing_key 1 (runEvents l evs).log_entries = .ok () := by
  induction evs with
  | nil =>
    intro l h1 _ _
    exact h1
  | cons p rest ih =>
    intro l h1 h2 h3
    simp only [List.length_cons] at h3
    have hfit : l.log_entries.length + 1 ≤ l.max_entries := by omega
    have hdk : (l.log_entries ++
        [(⟨p.1, l.next_sequence, p.2, l.device_fingerprint,
          sign_log_entry l.signing_key
            ⟨p.1, l.next_sequence, p.2, l.device_fingerprint⟩⟩ : LogEntry)]).length -
        l.max_entries = 0 := by
      simp
      omega
    have hstep : (log_event l p.1 p.2).log_entries = l.log_entries ++
        [⟨p.1, l.next_sequence, p.2, l.device_fingerprint,
          sign_log_entry l.signing_key
            ⟨p.1, l.next_sequence, p.2, l.device_fingerprint⟩⟩] := by
      simp only [log_event]
      rw [hdk]
      exact List.drop_zero _
    have hrun : runEvents l (p :: rest) = runEvents (log_event l p.1 p.2) rest := rfl
    rw [hrun]
    apply ih (log_event l p.1 p.2)
    · show verifyFrom l.signing_key 1 (log_event l p.1 p.2).log_entries = .ok ()
      rw [hstep]
      have hseq : (⟨p.1, l.next_sequence, p.2, l.device_fingerprint,
          sign_log_entry l.signing_key
            ⟨p.1, l.next_sequence, p.2, l.device_fingerprint⟩⟩ :
          LogEntry).sequence_number = 1 + l.log_entries.length := by
        show l.next_sequence = 1 + l.log_entries.length
        omega
      exact verifyFrom_append_ok l.signing_key _ (by simp [verify_log_signature,
        serialize_entry_without_signature, sign_log_entry]) 1 l.log_entries h1 hseq
    · show l.next_sequence + 1 = (log_event l p.1 p.2).log_entries.length + 1
      rw [hstep]
      simp only [List.length_append, List.length_cons, List.length_nil]
      omega
    · show (log_event l p.1 p.2).log_entries.length + rest.length ≤ l.max_entries
      rw [hstep]
      simp only [List.length_append, List.length_cons, List.length_nil]
      omega

/-- C5 (amended): every two adjacent retained entries carry consecutive
sequence numbers and valid signatures, so `verify_log_integrity` returns
`Ok` for every run of at most `max_entries` successful `log_event` calls
on a fresh logger. Beyond that, rotation drops the oldest entries and the
verifier — which requires the first retained sequence number to be
exactly 1 — fails with `SequenceViolation`. -/
theorem claim_C5 (signing_key : Nat) (device_id : List Nat) (M : Nat)
    (evs : List (Nat × LogEvent)) (h : evs.length ≤ M) :
    verify_log_integrity (runEvents (SignedLogger.new signing_key device_id M) evs) =
      .ok () := by
  have := runEvents_verify_aux evs (SignedLogger.new signing_key device_id M)
    (by rfl) (by rfl) (by simpa [SignedLogger.new] using h)
  exact this

theorem claim_C5_witness :
    verify_log_integrity
      (runEvents (SignedLogger.new 0 [] 2)
        [(10, .MessageSent 1 256), (11, .MessageSent 2 256)]) = .ok () :=
  claim_C5 0 [] 2 [(10, .MessageSent 1 256), (11, .MessageSent 2 256)] (by decide)

/-- Event-type enum from `audit/events.rs` (`AuditEventType`). -/
inductive AuditEventType where
  | MissionTransfer
  | SecurityAuthentication
  | AuthorizationCheck
  | WeatherValidation
  | DroneCommand
  | StationOperation
  | PolicyViolation
  | EmergencyAction
  | SystemHealthEvent
  | ComplianceAudit
  deriving DecidableEq, Repr

/-- Severity enum from `audit/events.rs` (`AuditSeverity`). -/
inductive AuditSeverity where
  | Informational
  | Low
  | Medium
  | High
  | Critical
  deriving DecidableEq, Repr

/-- Audit entry from `audit/events.rs` (`AuditEntry`), keeping the fields
the retention and alert logic reads (`entry_id`, `timestamp` in seconds,
`event_type`, `severity`); the remaining fields (actor, operation,
result, context, compliance flags, security metadata, evidence) are
opaque to those operations and folded into `details`. -/
structure AuditEntry where
  entry_id : String
  timestamp : Nat
  event_type : AuditEventType
  severity : AuditSeverity
  details : Nat
  deriving DecidableEq, Repr

/-- Archival strategies from `audit/events.rs` (`ArchivalStrategy`). -/
inductive ArchivalStrategy where
  | NoArchive
  | CompressAfter (days : Nat)
  | MoveToColdStorage (days : Nat)
  | DeleteAfter (days : Nat)
  deriving DecidableEq, Repr

/-- Retention policy from `audit/events.rs` (`RetentionPolicy`). -/
structure RetentionPolicy where
  max_age_days : Nat
  max_entries : Nat
  compression_enabled : Bool
  archival_strategy : ArchivalStrategy
  prioritized_events : List AuditEventType
  deriving DecidableEq, Repr

/-- Alert-type enum from `audit/events.rs` (`AlertType`). -/
inductive AlertType where
  | PolicyViolation
  | UnauthorizedAccess
  | SuspiciousActivity
  | SystemCompromise
  | ConfigurationError
  | PerformanceAnomaly
  | ComplianceDeviation
  | EmergencyCondition
  deriving DecidableEq, Repr

/-- Alert lifecycle enum from `audit/events.rs` (`AlertStatus`). -/
inductive AlertStatus where
  | Active
  | Investigating
  | Mitigated
  | Resolved
  | FalsePositive
  | Escalated
  deriving DecidableEq, Repr

/-- Security alert from `audit/events.rs` (`SecurityAlert`); the
`affected_systems`, `recommended_actions` and `evidence` payloads are
opaque to the status-update logic and folded into `details`. -/
structure SecurityAlert where
  alert_id : String
  timestamp : Nat
  severity : AuditSeverity
  alert_type : AlertType
  title : String
  description : String
  status : AlertStatus
  details : Nat
  deriving DecidableEq, Repr

/-- Error enum from `audit/events.rs` (`AuditError`). -/
inductive AuditError where
  | InvalidEntry (msg : String)
  | StorageLimitExceeded
  | ReportGenerationError (msg : String)
  | AlertNotFound
  | QueryError
  deriving DecidableEq, Repr

/-- Audit system state from `audit/events.rs` (`AuditSystem`), keeping
the components the embedded operations read: the store, the entry limit,
the retention policy and the alert list. The compliance engine and the
report generator are separate subsystems not touched by
`enforce_retention_policy` or `update_alert_status`. -/
structure AuditSystem where
  audit_store : List AuditEntry
  max_entries : Nat
  retention_policy : RetentionPolicy
  alerts : List SecurityAlert
  deriving DecidableEq, Repr

/-- The `matches!(severity, High | Critical)` test from
`enforce_retention_policy`. -/
def is_high_severity (s : AuditSeverity) : Bool :=
  match s with
  | .High => true
  | .Critical => true
  | _ => false

/-- Insert one entry into a timestamp-sorted list, before the first entry
with a strictly later timestamp (so order among equal timestamps is
preserved, as for Rust's stable `sort_by_key`). -/
def insertByTimestamp (e : AuditEntry) : List AuditEntry → List AuditEntry
  | [] => [e]
  | a :: rest =>
    if e.timestamp ≤ a.timestamp then e :: a :: rest
    else a :: insertByTimestamp e rest

/-- Stable sort by timestamp (`self.audit_store.sort_by_key(|e| e.timestamp)`). -/
def sortByTimestamp : List AuditEntry → List AuditEntry
  | [] => []
  | e :: rest => insertByTimestamp e (sortByTimestamp rest)

/-- `AuditSystem::enforce_retention_policy` from `audit/events.rs`.
First pass (`retain`): keep entries that are recent
(`timestamp > now − max_age`) or both High/Critical and of a prioritized
event type. If the store still exceeds `max_entries`: sort ascending by
timestamp and `truncate(max_entries)` — keeping the first `max_entries`
entries of the sorted store. `now` is in seconds; timestamps before the
epoch clamp at 0 under truncated subtraction. -/
def enforce_retention_policy (sys : AuditSystem) (now : Nat) : AuditSystem :=
  let max_age := sys.retention_policy.max_age_days * 86400
  let cutoff_time := now - max_age
  let kept := sys.audit_store.filter (fun e =>
    (decide (e.timestamp > cutoff_time)) ||
    (is_high_severity e.severity &&
      sys.retention_policy.prioritized_events.contains e.event_type))
  if kept.length > sys.max_entries then
    { sys with audit_store := (sortByTimestamp kept).take sys.max_entries }
  else
    { sys with audit_store := kept }

/-- The in-place update of `iter_mut().find(...)` in
`update_alert_status`: set the status of the first alert with the given
id, or report that none exists. -/
def updateFirstAlert (id : String) (st : AlertStatus) :
    List SecurityAlert → Option (List SecurityAlert)
  | [] => none
  | a :: rest =>
    if a.alert_id = id then some ({ a with status := st } :: rest)
    else (updateFirstAlert id st rest).map (fun l => a :: l)

/-- `AuditSystem::update_alert_status` from `audit/events.rs`: find the
first alert with the given id, assign `new_status` to it, and return
`Ok`; `AlertNotFound` when no alert matches. -/
def update_alert_status (sys : AuditSystem) (alert_id : String)
    (new_status : AlertStatus) : Except AuditError AuditSystem :=
  match updateFirstAlert alert_id new_status sys.alerts with
  | some al => .ok { sys with alerts := al }
  | none => .error .AlertNotFound

/-- The default retention policy built by `AuditSystem::new`. -/
def defaultPolicy (max_entries : Nat) : RetentionPolicy :=
  { max_age_days := 365
    max_entries := max_entries
    compression_enabled := true
    archival_strategy := .CompressAfter 90
    prioritized_events := [.MissionTransfer, .SecurityAuthentication,
      .EmergencyAction, .PolicyViolation] }

/-- A recent, non-prioritized, low-severity entry at t = 1. -/
def entryOld : AuditEntry := ⟨"e1", 1, .DroneCommand, .Low, 0⟩

/-- A younger entry of the same kind at t = 2. -/
def entryNew : AuditEntry := ⟨"e2", 2, .DroneCommand, .Low, 0⟩

/-- An audit system over capacity: two retained entries, limit 1. -/
def auditSys2 : AuditSystem :=
  { audit_store := [entryOld, entryNew]
    max_entries := 1
    retention_policy := defaultPolicy 1
    alerts := [] }

/-- C7: the fallback pass keeps the OLDEST entries and removes the
newest, the opposite of the claim (and of the source's own comment
"remove oldest entries"): with two recent non-prioritized entries and
`max_entries = 1`, `truncate` after the ascending sort retains the older
entry `e1` and drops the younger `e2`, where the claim requires dropping
the oldest non-prioritized entry `e1`. -/
theorem claim_C7 :
    (enforce_retention_policy auditSys2 100).audit_store = [entryOld] := by
  decide

/-- A concrete Active alert. -/
def alertA : SecurityAlert :=
  ⟨"a1", 0, .High, .PolicyViolation, "t", "d", .Active, 0⟩

/-- An audit system holding the single Active alert `alertA`. -/
def sysAlert : AuditSystem :=
  { audit_store := []
    max_entries := 10
    retention_policy := defaultPolicy 10
    alerts := [alertA] }

/-- C9 counterexample: `update_alert_status` applies the transition
Active → Resolved — which the claimed chain forbids (Resolved is only
reachable from Investigating) — and records nothing in the audit store,
which stays empty. -/
theorem claim_C9_counterexample :
    update_alert_status sysAlert "a1" .Resolved =
      .ok { sysAlert with alerts := [{ alertA with status := .Resolved }] } := by
  decide

theorem updateFirstAlert_not_found (id : String) (st : AlertStatus) :
    ∀ al : List SecurityAlert, (∀ a ∈ al, a.alert_id ≠ id) →
      updateFirstAlert id st al = none := by
  intro al
  induction al with
  | nil => intro _; rfl
  | cons a rest ih =>
    intro h
    have ha : a.alert_id ≠ id := h a (List.mem_cons_self a rest)
    simp only [updateFirstAlert, if_neg ha]
    rw [ih (fun b hb => h b (List.mem_cons_of_mem a hb))]
    rfl

theorem updateFirstAlert_found (id : String) (st : AlertStatus) :
    ∀ (pre : List SecurityAlert) (a : SecurityAlert) (post : List SecurityAlert),
      (∀ b ∈ pre, b.alert_id ≠ id) → a.alert_id = id →
      updateFirstAlert id st (pre ++ a :: post) =
        some (pre ++ { a with status := st } :: post) := by
  intro pre
  induction pre with
  | nil =>
    intro a post _ ha
    simp only [List.nil_append, updateFirstAlert, if_pos ha]
  | cons b rest ih =>
    intro a post hpre ha
    have hb : b.alert_id ≠ id := hpre b (List.mem_cons_self b rest)
    simp only [List.cons_append, updateFirstAlert, if_neg hb]
    simp only [List.append_eq]
    rw [ih a post (fun c hc => hpre c (List.mem_cons_of_mem b hc)) ha]
    rfl

/-- C9 (amended): `update_alert_status` applies every requested status to
the first alert carrying the given id, unconditionally — no transition
chain is enforced and nothing is appended to the audit store, which is
returned unchanged; an id matching no alert yields `AlertNotFound`. -/
theorem claim_C9 (sys : AuditSystem) (id : String) (st : AlertStatus) :
    ((∀ a ∈ sys.alerts, a.alert_id ≠ id) →
        update_alert_status sys id st = .error .AlertNotFound) ∧
    (∀ pre a post, sys.alerts = pre ++ a :: post → a.alert_id = id →
        (∀ b ∈ pre, b.alert_id ≠ id) →
        update_alert_status sys id st =
          .ok { sys with alerts := pre ++ { a with status := st } :: post }) := by
  constructor
  · intro h
    unfold update_alert_status
    rw [updateFirstAlert_not_found id st sys.alerts h]
  · intro pre a post heq ha hpre
    unfold update_alert_status
    rw [heq, updateFirstAlert_found id st pre a post hpre ha]

theorem claim_C9_witness :
    update_alert_status sysAlert "a1" AlertStatus.Escalated =
      Except.ok { sysAlert with alerts := [{ alertA with status := .Escalated }] } :=
  (claim_C9 sysAlert "a1" AlertStatus.Escalated).2 [] alertA []
    (by decide) (by decide) (by simp)

end RGibberLink
